import Mathlib

/-!
Verification of the cluster coordination core of janet-mesh.

The definitions below are a shallow embedding of
`server/cluster/cluster_orchestrator.py`, `server/cluster/identity_manager.py`
and `server/cluster/shared_memory.py` (in-process fallback paths).  Python
dictionaries that are iterated (the orchestrator's `nodes`) are modelled as
insertion-ordered association lists; dictionaries that are only looked up by
key are modelled as functions `String → Option _`.  Timestamps are modelled
as integers (the code only ever compares them and adds whole-second TTLs);
Python floats in the load score are modelled as rationals.  `datetime.utcnow()`
reads are made explicit `now` parameters.  Locking and the ZeroMQ transport
are erased: every handler is the pure state transformer the Python body
performs under its lock.
-/

/-- Lookup in a Python-dict-like association list (first binding wins). -/
def alookup {α : Type} : List (String × α) → String → Option α
  | [], _ => none
  | (k, v) :: rest, key => if k = key then some v else alookup rest key

/-- `d[key] = v` on a Python dict: replaces in place if the key exists
(keeping its position in iteration order), otherwise appends. -/
def aset {α : Type} : List (String × α) → String → α → List (String × α)
  | [], key, v => [(key, v)]
  | (k, w) :: rest, key, v =>
      if k = key then (k, v) :: rest else (k, w) :: aset rest key v

/-- `del d[key]` on a Python dict: remaining keys keep their order. -/
def aerase {α : Type} (l : List (String × α)) (key : String) : List (String × α) :=
  l.filter (fun p => p.1 != key)

/-- Python truthiness of an optional string (`None` and `""` are falsy). -/
def optTruthy (s : Option String) : Bool :=
  match s with
  | some v => v != ""
  | none => false

/-- `NodeState` enum from cluster_orchestrator.py. -/
inductive NodeState where
  | follower
  | candidate
  | leader
  | disconnected
deriving DecidableEq, Repr

/-- `ClusterNode` from cluster_orchestrator.py. -/
structure ClusterNode where
  node_id : String
  address : String
  port : Int
  state : NodeState
  last_heartbeat : Int
  term : Int
  voted_for : Option String
  health_status : String
deriving DecidableEq, Repr

/-- The mutable fields of `ClusterOrchestrator` (configuration included). -/
structure OrchState where
  node_id : String
  heartbeat_interval : Int
  election_timeout : Int
  nodes : List (String × ClusterNode)
  current_term : Int
  state : NodeState
  leader_id : Option String
  voted_for : Option String
deriving DecidableEq, Repr

/-- `ClusterNode.__init__`: fresh node with current heartbeat, term 0. -/
def mk_cluster_node (now : Int) (node_id address : String) (port : Int)
    (state : NodeState) : ClusterNode :=
  { node_id := node_id, address := address, port := port, state := state,
    last_heartbeat := now, term := 0, voted_for := none,
    health_status := "healthy" }

/-- `ClusterOrchestrator.add_node`. -/
def add_node (now : Int) (node_id address : String) (port : Int)
    (state : NodeState) (σ : OrchState) : OrchState :=
  { σ with nodes := aset σ.nodes node_id (mk_cluster_node now node_id address port state) }

/-- `ClusterOrchestrator.__init__`: follower at term 0, self added to `nodes`. -/
def init_orchestrator (now : Int) (node_id bind_address : String)
    (cluster_port heartbeat_interval election_timeout : Int) : OrchState :=
  add_node now node_id bind_address cluster_port NodeState.follower
    { node_id := node_id, heartbeat_interval := heartbeat_interval,
      election_timeout := election_timeout, nodes := [],
      current_term := 0, state := NodeState.follower,
      leader_id := none, voted_for := none }

/-- `ClusterOrchestrator.is_leader`. -/
def is_leader (σ : OrchState) : Bool :=
  σ.state == NodeState.leader && σ.leader_id == some σ.node_id

/-- `ClusterOrchestrator.get_leader` (`if self.leader_id and self.leader_id in self.nodes`). -/
def get_leader (σ : OrchState) : Option ClusterNode :=
  match σ.leader_id with
  | some lid => if lid = "" then none else alookup σ.nodes lid
  | none => none

/-- `ClusterOrchestrator._start_election`. -/
def start_election (σ : OrchState) : OrchState :=
  if σ.state = NodeState.leader then σ
  else { σ with current_term := σ.current_term + 1,
                state := NodeState.candidate,
                voted_for := some σ.node_id }

/-- `ClusterOrchestrator._become_leader` (the leader-change callback is erased). -/
def become_leader (σ : OrchState) : OrchState :=
  { σ with state := NodeState.leader, leader_id := some σ.node_id }

/-- `ClusterOrchestrator.remove_node`. -/
def remove_node (node_id : String) (σ : OrchState) : OrchState :=
  match alookup σ.nodes node_id with
  | none => σ
  | some _ =>
      let σ1 := { σ with nodes := aerase σ.nodes node_id }
      if σ1.leader_id = some node_id then
        start_election { σ1 with leader_id := none, state := NodeState.follower }
      else σ1

/-- `ClusterOrchestrator._update_heartbeat`. -/
def update_heartbeat (now : Int) (node_id : String) (σ : OrchState) : OrchState :=
  match alookup σ.nodes node_id with
  | none => σ
  | some node =>
      let node1 := { node with last_heartbeat := now, health_status := "healthy" }
      { σ with nodes := aset σ.nodes node_id node1 }

/-- Body of the `for node_id, node in list(self.nodes.items())` loop of
`ClusterOrchestrator._check_health`, for one node id. -/
def check_node (now : Int) (σ : OrchState) (node_id : String) : OrchState :=
  match alookup σ.nodes node_id with
  | none => σ
  | some node =>
      if σ.election_timeout < now - node.last_heartbeat then
        if σ.nodes.length = 1 ∧ node_id = σ.node_id ∧ is_leader σ = false then
          let σ1 := become_leader σ
          let node1 := { node with last_heartbeat := now, health_status := "healthy" }
          { σ1 with nodes := aset σ1.nodes node_id node1 }
        else
          let nodeU := { node with health_status := "unhealthy" }
          let σ1 := { σ with nodes := aset σ.nodes node_id nodeU }
          if σ1.leader_id = some node_id ∧ σ1.state ≠ NodeState.leader then
            start_election { σ1 with leader_id := none, state := NodeState.follower }
          else if σ1.nodes.length = 1 ∧ node_id = σ1.node_id ∧ is_leader σ1 = true then
            let node1 := { node with health_status := "healthy", last_heartbeat := now }
            { σ1 with nodes := aset σ1.nodes node_id node1 }
          else σ1
      else σ

/-- `ClusterOrchestrator._check_health`: the loop iterates a snapshot of the
keys; nothing is added or removed during the sweep, so folding the per-node
body over the key snapshot is the loop. -/
def check_health (now : Int) (σ : OrchState) : OrchState :=
  (σ.nodes.map Prod.fst).foldl (check_node now) σ

/-- The `vote_request` branch of `ClusterOrchestrator._handle_zmq_message`;
returns the new state and the `vote_granted` reply. -/
def handle_vote_request (candidate_id : String) (term : Int)
    (σ : OrchState) : OrchState × Bool :=
  if σ.current_term < term then
    ({ σ with current_term := term, voted_for := some candidate_id }, true)
  else if term = σ.current_term ∧ σ.voted_for = none then
    ({ σ with voted_for := some candidate_id }, true)
  else (σ, false)

/-- The `leader_announcement` branch of `ClusterOrchestrator._handle_zmq_message`. -/
def handle_leader_announcement (leader_id : String) (term : Int)
    (σ : OrchState) : OrchState :=
  if σ.current_term ≤ term then
    { σ with current_term := term, leader_id := some leader_id,
             state := NodeState.follower, voted_for := none }
  else σ

/-- The standalone auto-promotion in `ClusterOrchestrator.start`. -/
def start_orchestrator (σ : OrchState) : OrchState :=
  if σ.nodes.length = 1 ∧ σ.state = NodeState.follower then become_leader σ else σ

/-- The standalone auto-promotion in `ClusterOrchestrator._run_loop`. -/
def standalone_auto_elect (σ : OrchState) : OrchState :=
  if σ.nodes.length = 1 ∧ is_leader σ = false then become_leader σ else σ

/-- `ClusterOrchestrator._send_heartbeat` (only refreshes the own heartbeat). -/
def send_heartbeat (now : Int) (σ : OrchState) : OrchState :=
  update_heartbeat now σ.node_id σ

/-- Every public operation and control-loop action of the orchestrator that
mutates its state. -/
inductive OrchEvent where
  | addNode (now : Int) (node_id address : String) (port : Int) (st : NodeState)
  | removeNode (node_id : String)
  | startElection
  | becomeLeader
  | heartbeatMsg (now : Int) (node_id : String)
  | sendHeartbeat (now : Int)
  | voteRequest (candidate_id : String) (term : Int)
  | leaderAnnouncement (leader_id : String) (term : Int)
  | unknownMsg
  | checkHealth (now : Int)
  | startOp
  | autoElect
deriving DecidableEq, Repr

/-- One orchestrator step. -/
def orch_step (e : OrchEvent) (σ : OrchState) : OrchState :=
  match e with
  | .addNode now nid addr port st => add_node now nid addr port st σ
  | .removeNode nid => remove_node nid σ
  | .startElection => start_election σ
  | .becomeLeader => become_leader σ
  | .heartbeatMsg now nid => update_heartbeat now nid σ
  | .sendHeartbeat now => send_heartbeat now σ
  | .voteRequest c t => (handle_vote_request c t σ).1
  | .leaderAnnouncement l t => handle_leader_announcement l t σ
  | .unknownMsg => σ
  | .checkHealth now => check_health now σ
  | .startOp => start_orchestrator σ
  | .autoElect => standalone_auto_elect σ

/-- A finite run of orchestrator steps. -/
def orch_run (σ : OrchState) (evs : List OrchEvent) : OrchState :=
  evs.foldl (fun s e => orch_step e s) σ

lemma start_election_term_le (σ : OrchState) :
    σ.current_term ≤ (start_election σ).current_term := by
  unfold start_election
  split <;> simp

lemma check_node_term_le (now : Int) (σ : OrchState) (k : String) :
    σ.current_term ≤ (check_node now σ k).current_term := by
  unfold check_node
  cases alookup σ.nodes k with
  | none => simp
  | some node =>
      simp only
      split
      · split
        · simp [become_leader]
        · split
          · exact start_election_term_le _
          · split <;> simp
      · simp

lemma check_health_term_le (now : Int) (σ : OrchState) :
    σ.current_term ≤ (check_health now σ).current_term := by
  unfold check_health
  generalize σ.nodes.map Prod.fst = keys
  induction keys generalizing σ with
  | nil => simp
  | cons k rest ih =>
      calc σ.current_term ≤ (check_node now σ k).current_term :=
             check_node_term_le now σ k
        _ ≤ _ := ih (check_node now σ k)

lemma orch_step_term_le (e : OrchEvent) (σ : OrchState) :
    σ.current_term ≤ (orch_step e σ).current_term := by
  cases e with
  | addNode now nid addr port st => simp [orch_step, add_node]
  | removeNode nid =>
      simp only [orch_step, remove_node]
      cases alookup σ.nodes nid with
      | none => simp
      | some n =>
          simp only
          split
          · exact start_election_term_le _
          · simp
  | startElection => exact start_election_term_le σ
  | becomeLeader => simp [orch_step, become_leader]
  | heartbeatMsg now nid =>
      simp only [orch_step, update_heartbeat]
      cases alookup σ.nodes nid <;> simp
  | sendHeartbeat now =>
      simp only [orch_step, send_heartbeat, update_heartbeat]
      cases alookup σ.nodes σ.node_id <;> simp
  | voteRequest c t =>
      simp only [orch_step, handle_vote_request]
      split
      · simp; omega
      · split <;> simp
  | leaderAnnouncement l t =>
      simp only [orch_step, handle_leader_announcement]
      split <;> simp
      omega
  | unknownMsg => simp [orch_step]
  | checkHealth now => exact check_health_term_le now σ
  | startOp =>
      simp only [orch_step, start_orchestrator]
      split <;> simp [become_leader]
  | autoElect =>
      simp only [orch_step, standalone_auto_elect]
      split <;> simp [become_leader]

/-- C1: Term monotonicity — across any sequence of orchestrator steps
(elections, inbound vote requests, leader announcements, and every other
public operation), `current_term` never decreases. -/
theorem C1_term_monotonicity (σ : OrchState) (evs : List OrchEvent) :
    σ.current_term ≤ (orch_run σ evs).current_term := by
  unfold orch_run
  induction evs generalizing σ with
  | nil => simp
  | cons e rest ih =>
      calc σ.current_term ≤ (orch_step e σ).current_term := orch_step_term_le e σ
        _ ≤ _ := by simpa using ih (orch_step e σ)

/-- Processing a sequence of inbound `vote_request` messages, collecting the
granted votes as pairs (term voted in, candidate voted for). -/
def run_vote_requests : OrchState → List (String × Int) → List (Int × String)
  | _, [] => []
  | σ, (c, t) :: rest =>
      let r := handle_vote_request c t σ
      if r.2 then (t, c) :: run_vote_requests r.1 rest
      else run_vote_requests r.1 rest


lemma run_vote_requests_gt (σ : OrchState) (c : String) (t : Int)
    (rest : List (String × Int)) (h : σ.current_term < t) :
    run_vote_requests σ ((c, t) :: rest) =
      (t, c) :: run_vote_requests { σ with current_term := t, voted_for := some c } rest := by
  simp [run_vote_requests, handle_vote_request, h]

lemma run_vote_requests_eq_grant (σ : OrchState) (c : String) (t : Int)
    (rest : List (String × Int)) (_h1 : ¬ σ.current_term < t)
    (h2 : t = σ.current_term) (h3 : σ.voted_for = none) :
    run_vote_requests σ ((c, t) :: rest) =
      (t, c) :: run_vote_requests { σ with voted_for := some c } rest := by
  simp [run_vote_requests, handle_vote_request, h2, h3]

lemma run_vote_requests_deny (σ : OrchState) (c : String) (t : Int)
    (rest : List (String × Int)) (h1 : ¬ σ.current_term < t)
    (h2 : ¬ (t = σ.current_term ∧ σ.voted_for = none)) :
    run_vote_requests σ ((c, t) :: rest) = run_vote_requests σ rest := by
  simp only [run_vote_requests, handle_vote_request]
  rw [if_neg h1, if_neg h2]
  simp

lemma grants_terms_above (evs : List (String × Int)) :
    ∀ σ : OrchState, σ.voted_for ≠ none →
      ∀ p ∈ run_vote_requests σ evs, σ.current_term < p.1 := by
  induction evs with
  | nil => intro σ _ p hp; simp [run_vote_requests] at hp
  | cons e rest ih =>
      intro σ hv p hp
      obtain ⟨c, t⟩ := e
      by_cases hlt : σ.current_term < t
      · rw [run_vote_requests_gt σ c t rest hlt] at hp
        rcases List.mem_cons.1 hp with hp | hp
        · subst hp; exact hlt
        · have h2 := ih { σ with current_term := t, voted_for := some c }
            (by simp) p hp
          have h3 : t < p.1 := h2
          omega
      · by_cases heqn : t = σ.current_term ∧ σ.voted_for = none
        · exact absurd heqn.2 hv
        · rw [run_vote_requests_deny σ c t rest hlt heqn] at hp
          exact ih σ hv p hp

lemma grants_pairwise_increasing (evs : List (String × Int)) :
    ∀ σ : OrchState,
      (run_vote_requests σ evs).Pairwise (fun p q => p.1 < q.1) := by
  induction evs with
  | nil => intro σ; simp [run_vote_requests]
  | cons e rest ih =>
      intro σ
      obtain ⟨c, t⟩ := e
      by_cases hlt : σ.current_term < t
      · rw [run_vote_requests_gt σ c t rest hlt]
        refine List.pairwise_cons.2 ⟨?_, ih _⟩
        intro q hq
        have h2 := grants_terms_above rest
          { σ with current_term := t, voted_for := some c } (by simp) q hq
        exact h2
      · by_cases heqn : t = σ.current_term ∧ σ.voted_for = none
        · rw [run_vote_requests_eq_grant σ c t rest hlt heqn.1 heqn.2]
          refine List.pairwise_cons.2 ⟨?_, ih _⟩
          intro q hq
          have h2 := grants_terms_above rest
            { σ with voted_for := some c } (by simp) q hq
          have h3 : σ.current_term < q.1 := h2
          omega
        · rw [run_vote_requests_deny σ c t rest hlt heqn]
          exact ih σ

lemma pairwise_lt_functional (l : List (Int × String)) :
    l.Pairwise (fun p q => p.1 < q.1) →
    ∀ t c1 c2, (t, c1) ∈ l → (t, c2) ∈ l → c1 = c2 := by
  induction l with
  | nil => intro _ t c1 c2 h1; simp at h1
  | cons a rest ih =>
      intro hp t c1 c2 h1 h2
      rcases List.pairwise_cons.1 hp with ⟨ha, hrest⟩
      rcases List.mem_cons.1 h1 with h1 | h1 <;>
        rcases List.mem_cons.1 h2 with h2 | h2
      · have h12 := h1.trans h2.symm
        simpa using h12
      · have hlt := ha _ h2
        rw [← h1] at hlt
        simp at hlt
      · have hlt := ha _ h1
        rw [← h2] at hlt
        simp at hlt
      · exact ih hrest t c1 c2 h1 h2

/-- C2 counterexample: starting from a fresh orchestrator, a vote for "A" is
granted raising the term to 1; an equal-term leader announcement then clears
`voted_for` without changing the term; a vote for "B" at the same term 1 is
then granted as well — two different candidates granted in one term. -/
theorem C2_single_vote_counterexample :
    ((handle_vote_request "A" 1 (init_orchestrator 0 "n1" "0.0.0.0" 8766 5 15)).2 = true) ∧
    ((handle_vote_request "A" 1 (init_orchestrator 0 "n1" "0.0.0.0" 8766 5 15)).1.current_term = 1) ∧
    ((handle_vote_request "B" 1 (handle_leader_announcement "L" 1
        (handle_vote_request "A" 1 (init_orchestrator 0 "n1" "0.0.0.0" 8766 5 15)).1)).2 = true) ∧
    ((handle_vote_request "B" 1 (handle_leader_announcement "L" 1
        (handle_vote_request "A" 1 (init_orchestrator 0 "n1" "0.0.0.0" 8766 5 15)).1)).1.current_term = 1) ∧
    ("A" ≠ "B") := by
  decide

/-- C2 (amended): an inbound vote_request(candidate_id, term) is granted iff
the term is strictly greater than current_term (term raised, vote recorded) or
equal with no vote cast yet (vote recorded); otherwise the vote is denied and
the state is unchanged.  The single-vote-per-term consequence holds in the
absence of interleaved leader announcements: over any sequence consisting of
vote requests only, votes granted for one term all go to one candidate (an
equal-term leader_announcement clears voted_for without changing the term and
breaks the unrestricted consequence, as the counterexample shows). -/
theorem C2_vote_grant_rule_amended :
    (∀ (σ : OrchState) (c : String) (t : Int),
      ((handle_vote_request c t σ).2 = true ↔
        (σ.current_term < t ∨ (t = σ.current_term ∧ σ.voted_for = none))) ∧
      (σ.current_term < t →
        (handle_vote_request c t σ).1.current_term = t ∧
        (handle_vote_request c t σ).1.voted_for = some c) ∧
      (t = σ.current_term ∧ σ.voted_for = none →
        (handle_vote_request c t σ).1.current_term = σ.current_term ∧
        (handle_vote_request c t σ).1.voted_for = some c) ∧
      ((handle_vote_request c t σ).2 = false → (handle_vote_request c t σ).1 = σ)) ∧
    (∀ (σ : OrchState) (evs : List (String × Int)) (t : Int) (c1 c2 : String),
      (t, c1) ∈ run_vote_requests σ evs → (t, c2) ∈ run_vote_requests σ evs →
      c1 = c2) := by
  constructor
  · intro σ c t
    refine ⟨?_, ?_, ?_, ?_⟩
    · by_cases hlt : σ.current_term < t
      · simp [handle_vote_request, hlt]
      · by_cases heq : t = σ.current_term ∧ σ.voted_for = none
        · simp [handle_vote_request, hlt, heq.1, heq.2]
        · simp [handle_vote_request, hlt, heq]
    · intro hlt
      simp [handle_vote_request, hlt]
    · intro heq
      have hlt : ¬ σ.current_term < t := by omega
      simp [handle_vote_request, hlt, heq.1, heq.2]
    · intro hdeny
      by_cases hlt : σ.current_term < t
      · simp [handle_vote_request, hlt] at hdeny
      · by_cases heq : t = σ.current_term ∧ σ.voted_for = none
        · simp [handle_vote_request, hlt, heq.1, heq.2] at hdeny
        · simp [handle_vote_request, hlt, heq]
  · intro σ evs t c1 c2 h1 h2
    exact pairwise_lt_functional _ (grants_pairwise_increasing evs σ) t c1 c2 h1 h2

/-- C2 witness: instantiating the amended grant rule on a fresh orchestrator
and the vote_request("A", 1). -/
theorem C2_vote_grant_rule_witness :
    ((init_orchestrator 0 "n1" "0.0.0.0" 8766 5 15).current_term < 1) ∧
    ((handle_vote_request "A" 1 (init_orchestrator 0 "n1" "0.0.0.0" 8766 5 15)).1.current_term = 1 ∧
     (handle_vote_request "A" 1 (init_orchestrator 0 "n1" "0.0.0.0" 8766 5 15)).1.voted_for = some "A") :=
  ⟨by decide,
   (C2_vote_grant_rule_amended.1 (init_orchestrator 0 "n1" "0.0.0.0" 8766 5 15) "A" 1).2.1
     (by decide)⟩

lemma alookup_aset_self {α : Type} (l : List (String × α)) (k : String) (v : α) :
    alookup (aset l k v) k = some v := by
  induction l with
  | nil => simp [aset, alookup]
  | cons p rest ih =>
      obtain ⟨pk, pv⟩ := p
      by_cases hk : pk = k
      · simp [aset, hk, alookup]
      · simp [aset, hk, alookup, ih]

lemma alookup_aset_length {α : Type} (l : List (String × α)) (k : String) (v w : α)
    (h : alookup l k = some v) : (aset l k w).length = l.length := by
  induction l with
  | nil => simp [alookup] at h
  | cons p rest ih =>
      obtain ⟨pk, pv⟩ := p
      by_cases hk : pk = k
      · simp [aset, hk]
      · simp only [alookup, if_neg hk] at h
        simp [aset, hk, ih h]

lemma start_election_nodes (σ : OrchState) : (start_election σ).nodes = σ.nodes := by
  unfold start_election
  split <;> rfl

lemma check_node_leader_term (now : Int) (σ : OrchState) (k : String) :
    (check_node now σ k).state = NodeState.leader →
    (check_node now σ k).current_term = σ.current_term := by
  unfold check_node
  cases alookup σ.nodes k with
  | none => intro _; rfl
  | some node =>
      simp only
      split
      · split
        · intro _; simp [become_leader]
        · split
          · intro hlead
            exfalso
            simp [start_election] at hlead
          · split
            · intro _; rfl
            · intro _; rfl
      · intro _; rfl

lemma check_node_multi_state (now : Int) (σ : OrchState) (k : String)
    (hlen : σ.nodes.length ≠ 1) :
    (check_node now σ k).state = NodeState.leader → σ.state = NodeState.leader := by
  unfold check_node
  cases alookup σ.nodes k with
  | none => intro h; exact h
  | some node =>
      simp only
      split
      · split
        · next hcond => intro _; exact absurd hcond.1 hlen
        · split
          · intro hlead
            exfalso
            simp [start_election] at hlead
          · split
            · intro h; exact h
            · intro h; exact h
      · intro h; exact h

lemma check_node_nodes_length (now : Int) (σ : OrchState) (k : String) :
    (check_node now σ k).nodes.length = σ.nodes.length := by
  unfold check_node
  cases hl : alookup σ.nodes k with
  | none => rfl
  | some node =>
      simp only
      split
      · split
        · exact alookup_aset_length σ.nodes k _ _ hl
        · split
          · rw [start_election_nodes]
            exact alookup_aset_length σ.nodes k _ _ hl
          · split
            · exact (alookup_aset_length _ k _ _ (alookup_aset_self σ.nodes k _)).trans
                (alookup_aset_length σ.nodes k _ _ hl)
            · exact alookup_aset_length σ.nodes k _ _ hl
      · rfl

lemma check_health_fold_multi (now : Int) (keys : List String) :
    ∀ σ : OrchState, σ.nodes.length ≠ 1 →
      (keys.foldl (check_node now) σ).state = NodeState.leader →
      σ.state = NodeState.leader := by
  induction keys with
  | nil => intro σ _ h; exact h
  | cons k rest ih =>
      intro σ hlen h
      have hlen1 : (check_node now σ k).nodes.length ≠ 1 := by
        rw [check_node_nodes_length]; exact hlen
      exact check_node_multi_state now σ k hlen (ih _ hlen1 h)

/-- C3 counterexample: a freshly constructed single-node orchestrator is a
Follower, and `start()` promotes it directly to Leader — the state immediately
before the transition into Leader is Follower, not Candidate. -/
theorem C3_follower_to_leader_counterexample :
    (init_orchestrator 0 "n1" "0.0.0.0" 8766 5 15).state = NodeState.follower ∧
    (init_orchestrator 0 "n1" "0.0.0.0" 8766 5 15).state ≠ NodeState.candidate ∧
    (orch_step OrchEvent.startOp (init_orchestrator 0 "n1" "0.0.0.0" 8766 5 15)).state =
      NodeState.leader := by
  decide

/-- C3 (amended): whenever an orchestrator step moves the own state into
Leader, `current_term` is unchanged by that step; the state immediately before
the transition need not be Candidate — in the single-node auto-promotion paths
(`start()`, the run-loop auto-elect, and the health-check standalone branch)
it is Follower. -/
theorem C3_leader_entry_amended (σ : OrchState) (e : OrchEvent)
    (hpre : σ.state ≠ NodeState.leader)
    (hpost : (orch_step e σ).state = NodeState.leader) :
    (orch_step e σ).current_term = σ.current_term := by
  cases e with
  | addNode now nid addr port st => rfl
  | removeNode nid =>
      simp only [orch_step, remove_node] at hpost ⊢
      cases hl : alookup σ.nodes nid with
      | none => rfl
      | some n =>
          rw [hl] at hpost
          by_cases hld : σ.leader_id = some nid
          · rw [if_pos hld] at hpost
            exfalso
            simp [start_election] at hpost
          · rw [if_neg hld]
  | startElection =>
      exfalso
      simp only [orch_step, start_election] at hpost
      rw [if_neg hpre] at hpost
      simp at hpost
  | becomeLeader => rfl
  | heartbeatMsg now nid =>
      simp only [orch_step, update_heartbeat]
      cases alookup σ.nodes nid <;> rfl
  | sendHeartbeat now =>
      simp only [orch_step, send_heartbeat, update_heartbeat]
      cases alookup σ.nodes σ.node_id <;> rfl
  | voteRequest c t =>
      exfalso
      apply hpre
      simp only [orch_step, handle_vote_request] at hpost
      split at hpost
      · exact hpost
      · split at hpost
        · exact hpost
        · exact hpost
  | leaderAnnouncement l t =>
      exfalso
      simp only [orch_step, handle_leader_announcement] at hpost
      split at hpost
      · simp at hpost
      · exact hpre hpost
  | unknownMsg => rfl
  | checkHealth now =>
      simp only [orch_step, check_health] at hpost ⊢
      rcases hn : σ.nodes with _ | ⟨p, rest⟩
      · rw [hn] at hpost
        exact absurd hpost hpre
      · rw [hn] at hpost
        rcases rest with _ | ⟨q, rest2⟩
        · simp only [List.map_cons, List.map_nil, List.foldl_cons, List.foldl_nil] at hpost ⊢
          exact check_node_leader_term now σ p.1 hpost
        · exact absurd (check_health_fold_multi now (List.map Prod.fst (p :: q :: rest2)) σ
            (by rw [hn]; simp) hpost) hpre
  | startOp =>
      simp only [orch_step, start_orchestrator] at hpost ⊢
      by_cases hc : σ.nodes.length = 1 ∧ σ.state = NodeState.follower
      · rw [if_pos hc]
        rfl
      · rw [if_neg hc] at hpost
        exact absurd hpost hpre
  | autoElect =>
      simp only [orch_step, standalone_auto_elect] at hpost ⊢
      by_cases hc : σ.nodes.length = 1 ∧ is_leader σ = false
      · rw [if_pos hc]
        rfl
      · rw [if_neg hc] at hpost
        exact absurd hpost hpre

/-- C3 witness: the single-node promotion by `start()` enters Leader with the
term unchanged. -/
theorem C3_leader_entry_witness :
    ((init_orchestrator 0 "n1" "0.0.0.0" 8766 5 15).state ≠ NodeState.leader) ∧
    ((orch_step OrchEvent.startOp (init_orchestrator 0 "n1" "0.0.0.0" 8766 5 15)).state =
       NodeState.leader) ∧
    ((orch_step OrchEvent.startOp (init_orchestrator 0 "n1" "0.0.0.0" 8766 5 15)).current_term =
       (init_orchestrator 0 "n1" "0.0.0.0" 8766 5 15).current_term) :=
  ⟨by decide, by decide,
   C3_leader_entry_amended (init_orchestrator 0 "n1" "0.0.0.0" 8766 5 15)
     OrchEvent.startOp (by decide) (by decide)⟩

/-- Concrete two-node view whose recorded leader is this node itself while the
own state is Leader: obtained by starting a single-node orchestrator "a"
(auto-promotion) and then registering a second node "b". -/
def c4_stale_leader_view : OrchState :=
  add_node 0 "b" "10.0.0.2" 8766 NodeState.follower
    (orch_step OrchEvent.startOp (init_orchestrator 0 "a" "0.0.0.0" 8766 5 15))

/-- Concrete two-node Follower view whose recorded leader is the other node
"b": node "a" accepted a leader announcement for "b" at term 1. -/
def c4_follower_view : OrchState :=
  handle_leader_announcement "b" 1
    (add_node 0 "b" "10.0.0.2" 8766 NodeState.follower
      (init_orchestrator 0 "a" "0.0.0.0" 8766 5 15))

/-- C4 counterexample: in a two-node view where this node is the recorded
leader and its own heartbeat is stale, the health check marks it unhealthy but
— because the own state is Leader — does NOT clear leader_id, does not revert
to Follower, and starts no election, contrary to the claim. -/
theorem C4_health_check_counterexample :
    ((100 : Int) - ((alookup c4_stale_leader_view.nodes "a").map
        ClusterNode.last_heartbeat).getD 0 > c4_stale_leader_view.election_timeout) ∧
    (c4_stale_leader_view.leader_id = some "a") ∧
    ((alookup (check_health 100 c4_stale_leader_view).nodes "a").map
        ClusterNode.health_status = some "unhealthy") ∧
    ((check_health 100 c4_stale_leader_view).leader_id = some "a") ∧
    ((check_health 100 c4_stale_leader_view).state = NodeState.leader) ∧
    ((check_health 100 c4_stale_leader_view).current_term =
        c4_stale_leader_view.current_term) := by
  decide

/-- C4 (amended): (i) remove_node(id) deletes the membership record, and if
the removed node was the recorded leader it clears leader_id, resets the state
to Follower and starts an election (term + 1, Candidate, self-vote); otherwise
only the record is deleted.  (ii) The health check marks a stale node
unhealthy (single-node self cases excepted), and if the stale node is the
recorded leader AND the own state is not Leader, it clears leader_id, reverts
to Follower and starts an election in the same way; when the own state is
Leader no election is triggered (the counterexample above). -/
theorem C4_leader_loss_amended :
    (∀ (σ : OrchState) (id : String),
      (alookup σ.nodes id = none → remove_node id σ = σ) ∧
      (alookup σ.nodes id ≠ none →
        (remove_node id σ).nodes = aerase σ.nodes id ∧
        (σ.leader_id = some id →
          (remove_node id σ).leader_id = none ∧
          (remove_node id σ).state = NodeState.candidate ∧
          (remove_node id σ).current_term = σ.current_term + 1 ∧
          (remove_node id σ).voted_for = some σ.node_id) ∧
        (σ.leader_id ≠ some id →
          remove_node id σ = { σ with nodes := aerase σ.nodes id }))) ∧
    (∀ (now : Int) (σ : OrchState) (nid : String) (node : ClusterNode),
      alookup σ.nodes nid = some node →
      σ.election_timeout < now - node.last_heartbeat →
      ¬(σ.nodes.length = 1 ∧ nid = σ.node_id ∧ is_leader σ = false) →
      ((¬(σ.nodes.length = 1 ∧ nid = σ.node_id) →
          alookup (check_node now σ nid).nodes nid =
            some { node with health_status := "unhealthy" }) ∧
       (σ.leader_id = some nid → σ.state ≠ NodeState.leader →
          (check_node now σ nid).leader_id = none ∧
          (check_node now σ nid).state = NodeState.candidate ∧
          (check_node now σ nid).current_term = σ.current_term + 1 ∧
          (check_node now σ nid).voted_for = some σ.node_id))) := by
  constructor
  · intro σ id
    cases hl : alookup σ.nodes id with
    | none =>
        refine ⟨fun _ => ?_, fun h => absurd rfl h⟩
        unfold remove_node
        rw [hl]
    | some v =>
        refine ⟨fun h => absurd h (by simp), fun _ => ?_⟩
        unfold remove_node
        rw [hl]
        by_cases hld : σ.leader_id = some id
        · rw [if_pos hld]
          refine ⟨start_election_nodes _, fun _ => ?_, fun h => absurd hld h⟩
          simp [start_election]
        · rw [if_neg hld]
          exact ⟨rfl, fun h => absurd h hld, fun _ => rfl⟩
  · intro now σ nid node hl hstale hnot1
    simp only [check_node, hl]
    rw [if_pos hstale, if_neg hnot1]
    constructor
    · intro hnot2
      split
      · rw [start_election_nodes]
        exact alookup_aset_self σ.nodes nid _
      · split
        · next hrefresh =>
            exfalso
            apply hnot2
            refine ⟨?_, hrefresh.2.1⟩
            have h1 := hrefresh.1
            rw [alookup_aset_length σ.nodes nid _ _ hl] at h1
            exact h1
        · exact alookup_aset_self σ.nodes nid _
    · intro hlid hstate
      split
      · simp [start_election]
      · next helse =>
          exact absurd ⟨hlid, hstate⟩ helse

/-- C4 witness: removing the recorded leader "a" from the two-node view
starts an election, and the health check on the stale recorded leader "b"
(own state Follower) does the same. -/
theorem C4_leader_loss_witness :
    ((remove_node "a" c4_stale_leader_view).leader_id = none ∧
     (remove_node "a" c4_stale_leader_view).state = NodeState.candidate ∧
     (remove_node "a" c4_stale_leader_view).current_term =
       c4_stale_leader_view.current_term + 1 ∧
     (remove_node "a" c4_stale_leader_view).voted_for = some "a") ∧
    ((check_node 100 c4_follower_view "b").leader_id = none ∧
     (check_node 100 c4_follower_view "b").state = NodeState.candidate ∧
     (check_node 100 c4_follower_view "b").current_term =
       c4_follower_view.current_term + 1 ∧
     (check_node 100 c4_follower_view "b").voted_for = some "a") := by
  constructor
  · exact ((C4_leader_loss_amended.1 c4_stale_leader_view "a").2 (by decide)).2.1 (by decide)
  · exact (C4_leader_loss_amended.2 100 c4_follower_view "b"
      (mk_cluster_node 0 "b" "10.0.0.2" 8766 NodeState.follower)
      (by decide) (by decide) (by decide)).2 (by decide) (by decide)

/-- One queue entry of the in-memory fallback queue: the serialized task
payload and its priority.  The `created_at` stamp is part of the serialized
payload and plays no role in ordering, and `json.dumps`/`json.loads` is a
round trip, so the payload is carried as-is. -/
structure QEntry where
  task : String
  priority : Int
deriving DecidableEq, Repr

/-- An entry of `SharedMemoryPool.memory_store`: a cluster-data value with
optional expiry, or a queue. -/
inductive MemEntry where
  | data (value : String) (expires_at : Option Int)
  | queue (entries : List QEntry)
deriving DecidableEq, Repr

/-- `SharedMemoryPool.memory_store` (in-process fallback).  Its keys are never
iterated in an order-sensitive way, so a functional map suffices. -/
def MemStore : Type := String → Option MemEntry

def empty_store : MemStore := fun _ => none

def store_set (st : MemStore) (k : String) (e : MemEntry) : MemStore :=
  fun q => if q = k then some e else st q

def store_del (st : MemStore) (k : String) : MemStore :=
  fun q => if q = k then none else st q

/-- `SharedMemoryPool._get_key`. -/
def get_key (pfx key : String) : String :=
  "janet:cluster:" ++ pfx ++ ":" ++ key

/-- Placement step of a stable descending sort: the element being inserted is
earlier in the original list than everything already in the sorted tail, so on
equal priority it goes first. -/
def qinsert (e : QEntry) : List QEntry → List QEntry
  | [] => [e]
  | x :: xs => if x.priority ≤ e.priority then e :: x :: xs else x :: qinsert e xs

/-- Python's `list.sort(key=lambda x: x["priority"], reverse=True)` is a
stable descending sort; any stable sort computes the same list, and this
insertion sort is one. -/
def qsort : List QEntry → List QEntry
  | [] => []
  | x :: xs => qinsert x (qsort xs)

/-- The queue list stored under a key (`[]` when absent — `add_to_queue`
creates the queue on demand). -/
def queue_of (st : MemStore) (qk : String) : List QEntry :=
  match st qk with
  | some (MemEntry.queue es) => es
  | _ => []

/-- `SharedMemoryPool.add_to_queue` (in-memory fallback): create the queue if
absent, append the entry, then sort by priority descending (stable). -/
def add_to_queue (queue_name : String) (task : String) (priority : Int)
    (st : MemStore) : MemStore :=
  let qk := get_key "queue" queue_name
  store_set st qk (MemEntry.queue (qsort (queue_of st qk ++ [⟨task, priority⟩])))

/-- `SharedMemoryPool.get_from_queue` (in-memory fallback): pop index 0 of the
stored list; "not found" on an absent or empty queue. -/
def get_from_queue (queue_name : String) (st : MemStore) :
    Option String × MemStore :=
  let qk := get_key "queue" queue_name
  match st qk with
  | some (MemEntry.queue (e :: es)) =>
      (some e.task, store_set st qk (MemEntry.queue es))
  | _ => (none, st)

/-- `SharedMemoryPool._cleanup_expired`: delete every data entry whose expiry
has passed (`now >= expires_at`); queue entries carry no expiry. -/
def cleanup_expired (now : Int) (st : MemStore) : MemStore :=
  fun q =>
    match st q with
    | some (MemEntry.data v (some e)) =>
        if now < e then some (MemEntry.data v (some e)) else none
    | other => other

/-- `SharedMemoryPool.set_cluster_data` (in-memory fallback): store the
serialized value, with expiry `now + ttl` when a truthy ttl is given
(`if ttl:` — a ttl of 0 stores no expiry), then run the cleanup sweep. -/
def set_cluster_data (now : Int) (key value : String) (ttl : Option Int)
    (st : MemStore) : MemStore :=
  let ck := get_key "data" key
  let exp : Option Int :=
    match ttl with
    | some tv => if tv = 0 then none else some (now + tv)
    | none => none
  cleanup_expired now (store_set st ck (MemEntry.data value exp))

/-- `SharedMemoryPool.get_cluster_data` (in-memory fallback): return the value
while `now < expires_at`; at or after expiry, delete the entry and report "not
found". -/
def get_cluster_data (now : Int) (key : String) (st : MemStore) :
    Option String × MemStore :=
  let ck := get_key "data" key
  match st ck with
  | some (MemEntry.data v none) => (some v, st)
  | some (MemEntry.data v (some e)) =>
      if now < e then (some v, st) else (none, store_del st ck)
  | _ => (none, st)

/-- The queue after a sequence of enqueues. -/
def enqueue_all (queue_name : String) (es : List QEntry) (st : MemStore) : MemStore :=
  es.foldl (fun s e => add_to_queue queue_name e.task e.priority s) st

/-- List-level effect of the enqueue sequence on the stored queue. -/
def queue_contents (es : List QEntry) : List QEntry :=
  es.foldl (fun q e => qsort (q ++ [e])) []

/-- Dequeue `n` times, collecting the replies. -/
def drain (queue_name : String) : Nat → MemStore → List (Option String)
  | 0, _ => []
  | n + 1, st =>
      let r := get_from_queue queue_name st
      r.1 :: drain queue_name n r.2

lemma qinsert_perm (e : QEntry) (l : List QEntry) : (qinsert e l).Perm (e :: l) := by
  induction l with
  | nil => simp [qinsert]
  | cons x xs ih =>
      unfold qinsert
      split
      · exact List.Perm.refl _
      · exact (List.Perm.cons x ih).trans (List.Perm.swap e x xs)

lemma qinsert_sorted (e : QEntry) (l : List QEntry)
    (hl : l.Pairwise (fun a b => b.priority ≤ a.priority)) :
    (qinsert e l).Pairwise (fun a b => b.priority ≤ a.priority) := by
  induction l with
  | nil => simp [qinsert]
  | cons x xs ih =>
      rcases List.pairwise_cons.1 hl with ⟨hx, hxs⟩
      unfold qinsert
      split
      · next hle =>
          refine List.pairwise_cons.2 ⟨?_, hl⟩
          intro b hb
          rcases List.mem_cons.1 hb with hb | hb
          · rw [hb]; exact hle
          · exact le_trans (hx b hb) hle
      · next hgt =>
          refine List.pairwise_cons.2 ⟨?_, ih hxs⟩
          intro b hb
          have hb2 := (qinsert_perm e xs).mem_iff.1 hb
          rcases List.mem_cons.1 hb2 with hb2 | hb2
          · rw [hb2]; omega
          · exact hx b hb2

lemma qinsert_filter (e : QEntry) (l : List QEntry) (p : Int) :
    (qinsert e l).filter (fun x => x.priority == p) =
      if e.priority = p then e :: l.filter (fun x => x.priority == p)
      else l.filter (fun x => x.priority == p) := by
  induction l with
  | nil =>
      by_cases hep : e.priority = p
      · simp [qinsert, List.filter_cons, hep]
      · simp [qinsert, List.filter_cons, hep]
  | cons x xs ih =>
      unfold qinsert
      split
      · next hle =>
          by_cases hep : e.priority = p
          · simp [List.filter_cons, hep]
          · simp [List.filter_cons, hep]
      · next hgt =>
          by_cases hep : e.priority = p
          · have hxp : ¬ x.priority = p := by omega
            simp [List.filter_cons, ih, hep, hxp]
          · simp [List.filter_cons, ih, hep]

lemma qsort_perm (l : List QEntry) : (qsort l).Perm l := by
  induction l with
  | nil => simp [qsort]
  | cons x xs ih =>
      exact (qinsert_perm x (qsort xs)).trans (List.Perm.cons x ih)

lemma qsort_sorted (l : List QEntry) :
    (qsort l).Pairwise (fun a b => b.priority ≤ a.priority) := by
  induction l with
  | nil => simp [qsort]
  | cons x xs ih => exact qinsert_sorted x (qsort xs) ih

lemma qsort_filter (l : List QEntry) (p : Int) :
    (qsort l).filter (fun x => x.priority == p) = l.filter (fun x => x.priority == p) := by
  induction l with
  | nil => rfl
  | cons x xs ih =>
      show (qinsert x (qsort xs)).filter _ = _
      rw [qinsert_filter]
      by_cases hxp : x.priority = p
      · simp [hxp, List.filter_cons, ih]
      · simp [hxp, List.filter_cons, ih]

lemma queue_contents_spec (es : List QEntry) :
    ∀ (done l : List QEntry),
      l.Perm done →
      l.Pairwise (fun a b => b.priority ≤ a.priority) →
      (∀ p : Int, l.filter (fun x => x.priority == p) =
        done.filter (fun x => x.priority == p)) →
      ((es.foldl (fun q e => qsort (q ++ [e])) l).Perm (done ++ es) ∧
       (es.foldl (fun q e => qsort (q ++ [e])) l).Pairwise
         (fun a b => b.priority ≤ a.priority) ∧
       (∀ p : Int, (es.foldl (fun q e => qsort (q ++ [e])) l).filter
           (fun x => x.priority == p) =
         (done ++ es).filter (fun x => x.priority == p))) := by
  induction es with
  | nil =>
      intro done l hperm hsort hfil
      refine ⟨by simpa using hperm, hsort, ?_⟩
      intro p
      simpa using hfil p
  | cons e rest ih =>
      intro done l hperm hsort hfil
      have hstep := ih (done ++ [e]) (qsort (l ++ [e]))
        (((qsort_perm _).trans (List.Perm.append hperm (List.Perm.refl [e]))))
        (qsort_sorted _)
        (by
          intro p
          rw [qsort_filter, List.filter_append, List.filter_append, hfil p])
      simpa [List.append_assoc] using hstep

lemma enqueue_all_queue_of (queue_name : String) (es : List QEntry) :
    ∀ st : MemStore,
      queue_of (enqueue_all queue_name es st) (get_key "queue" queue_name) =
        es.foldl (fun q e => qsort (q ++ [e]))
          (queue_of st (get_key "queue" queue_name)) := by
  induction es with
  | nil => intro st; rfl
  | cons e rest ih =>
      intro st
      show queue_of (enqueue_all queue_name rest (add_to_queue queue_name e.task e.priority st)) _ = _
      rw [ih]
      have hq : queue_of (add_to_queue queue_name e.task e.priority st)
          (get_key "queue" queue_name) =
          qsort (queue_of st (get_key "queue" queue_name) ++ [e]) := by
        simp [add_to_queue, queue_of, store_set]
      rw [hq]
      rfl

lemma queue_of_cons {st : MemStore} {qk : String} {e : QEntry} {rest : List QEntry}
    (h : queue_of st qk = e :: rest) : st qk = some (MemEntry.queue (e :: rest)) := by
  unfold queue_of at h
  cases hk : st qk with
  | none => rw [hk] at h; simp at h
  | some me =>
      cases me with
      | data v x => rw [hk] at h; simp at h
      | queue es => rw [hk] at h; simp at h; rw [h]

lemma drain_queue (queue_name : String) (l : List QEntry) :
    ∀ st : MemStore, queue_of st (get_key "queue" queue_name) = l →
      drain queue_name l.length st = l.map (fun e => some e.task) := by
  induction l with
  | nil => intro st _; rfl
  | cons e rest ih =>
      intro st h
      have hst := queue_of_cons h
      show (get_from_queue queue_name st).1 ::
        drain queue_name rest.length (get_from_queue queue_name st).2 = _
      rw [show get_from_queue queue_name st =
          (some e.task, store_set st (get_key "queue" queue_name) (MemEntry.queue rest)) from by
        simp [get_from_queue, hst]]
      rw [ih _ (by simp [queue_of, store_set])]
      rfl

/-- C6: in-process priority queue ordering — after any sequence of enqueues
the stored queue is a permutation of the enqueued entries, sorted by priority
descending, with equal-priority entries kept in insertion order (the filter at
each priority equals the insertion-order filter); draining the queue returns
exactly that list of payloads, head (highest priority, earliest inserted)
first; dequeue on an absent or present-but-empty queue reports "not found";
and enqueuing priorities [1,5,3] dequeues payloads in order 5,3,1. -/
theorem C6_priority_queue_order :
    (∀ (qn : String) (es : List QEntry),
      queue_of (enqueue_all qn es empty_store) (get_key "queue" qn) =
        queue_contents es ∧
      (queue_contents es).Perm es ∧
      (queue_contents es).Pairwise (fun a b => b.priority ≤ a.priority) ∧
      (∀ p : Int, (queue_contents es).filter (fun x => x.priority == p) =
        es.filter (fun x => x.priority == p)) ∧
      drain qn es.length (enqueue_all qn es empty_store) =
        (queue_contents es).map (fun e => some e.task)) ∧
    (∀ qn : String, (get_from_queue qn empty_store).1 = none) ∧
    (∀ qn : String, (get_from_queue qn
        (store_set empty_store (get_key "queue" qn) (MemEntry.queue []))).1 = none) ∧
    drain "tasks" 3 (enqueue_all "tasks"
        [⟨"p1", 1⟩, ⟨"p5", 5⟩, ⟨"p3", 3⟩] empty_store) =
      [some "p5", some "p3", some "p1"] := by
  have hmain : ∀ (qn : String) (es : List QEntry),
      queue_of (enqueue_all qn es empty_store) (get_key "queue" qn) =
        queue_contents es ∧
      (queue_contents es).Perm es ∧
      (queue_contents es).Pairwise (fun a b => b.priority ≤ a.priority) ∧
      (∀ p : Int, (queue_contents es).filter (fun x => x.priority == p) =
        es.filter (fun x => x.priority == p)) ∧
      drain qn es.length (enqueue_all qn es empty_store) =
        (queue_contents es).map (fun e => some e.task) := by
    intro qn es
    have hq : queue_of (enqueue_all qn es empty_store) (get_key "queue" qn) =
        queue_contents es := by
      rw [enqueue_all_queue_of]
      rfl
    have hspec := queue_contents_spec es [] [] (List.Perm.refl []) (by simp)
      (fun p => rfl)
    have hperm : (queue_contents es).Perm es := by
      have := hspec.1
      simpa [queue_contents] using this
    have hsort : (queue_contents es).Pairwise (fun a b => b.priority ≤ a.priority) :=
      hspec.2.1
    have hfil : ∀ p : Int, (queue_contents es).filter (fun x => x.priority == p) =
        es.filter (fun x => x.priority == p) := by
      intro p
      have := hspec.2.2 p
      simpa [queue_contents] using this
    refine ⟨hq, hperm, hsort, hfil, ?_⟩
    have hlen : es.length = (queue_contents es).length := (hperm.length_eq).symm
    rw [hlen]
    exact drain_queue qn (queue_contents es) _ hq
  refine ⟨hmain, ?_, ?_, ?_⟩
  · intro qn
    rfl
  · intro qn
    simp [get_from_queue, store_set]
  · have h3 := (hmain "tasks" [⟨"p1", 1⟩, ⟨"p5", 5⟩, ⟨"p3", 3⟩]).2.2.2.2
    rw [show ([⟨"p1", 1⟩, ⟨"p5", 5⟩, ⟨"p3", 3⟩] : List QEntry).length = 3 from rfl] at h3
    rw [h3]
    rfl

lemma cleanup_fold_keeps (ck v : String) (e : Int) (cs : List Int) :
    ∀ st : MemStore, st ck = some (MemEntry.data v (some e)) →
      (∀ c ∈ cs, c < e) →
      (cs.foldl (fun s c => cleanup_expired c s) st) ck =
        some (MemEntry.data v (some e)) := by
  induction cs with
  | nil => intro st h _; exact h
  | cons c rest ih =>
      intro st h hc
      apply ih
      · show cleanup_expired c st ck = _
        unfold cleanup_expired
        rw [h]
        exact if_pos (hc c (List.mem_cons_self c rest))
      · intro c2 hc2
        exact hc c2 (List.mem_cons_of_mem c hc2)

lemma cleanup_fold_none_or (ck v : String) (e : Int) (cs : List Int) :
    ∀ st : MemStore,
      (st ck = some (MemEntry.data v (some e)) ∨ st ck = none) →
      ((cs.foldl (fun s c => cleanup_expired c s) st) ck =
          some (MemEntry.data v (some e)) ∨
       (cs.foldl (fun s c => cleanup_expired c s) st) ck = none) := by
  induction cs with
  | nil => intro st h; exact h
  | cons c rest ih =>
      intro st h
      apply ih
      rcases h with h | h
      · show cleanup_expired c st ck = _ ∨ cleanup_expired c st ck = _
        unfold cleanup_expired
        rw [h]
        by_cases hce : c < e
        · left; exact if_pos hce
        · right; exact if_neg hce
      · right
        show cleanup_expired c st ck = _
        unfold cleanup_expired
        rw [h]

/-- C7: TTL expiry — a Cluster Store entry written with a positive ttl at time
w is returned by every read strictly before w + ttl and reported "not found"
by every read at or after w + ttl, no matter which cleanup sweeps ran in
between (sweep times between the write and the read). -/
theorem C7_ttl_expiry (st : MemStore) (key value : String) (ttl w t : Int)
    (cs : List Int) (httl : 0 < ttl)
    (hcs : ∀ c ∈ cs, w ≤ c ∧ c ≤ t) :
    (get_cluster_data t key
        (cs.foldl (fun s c => cleanup_expired c s)
          (set_cluster_data w key value (some ttl) st))).1 =
      if t < w + ttl then some value else none := by
  have h0 : (set_cluster_data w key value (some ttl) st) (get_key "data" key) =
      some (MemEntry.data value (some (w + ttl))) := by
    have h1 : ¬ ttl = 0 := by omega
    have h2 : w < w + ttl := by omega
    simp [set_cluster_data, cleanup_expired, store_set, h1, h2]
  by_cases hlt : t < w + ttl
  · rw [if_pos hlt]
    have hkeep := cleanup_fold_keeps (get_key "data" key) value (w + ttl) cs _ h0
      (fun c hc => by have := hcs c hc; omega)
    simp [get_cluster_data, hkeep, hlt]
  · rw [if_neg hlt]
    rcases cleanup_fold_none_or (get_key "data" key) value (w + ttl) cs _ (Or.inl h0)
      with hd | hd
    · simp [get_cluster_data, hd, hlt]
    · simp [get_cluster_data, hd]

/-- C7 witness: an entry written at time 0 with ttl 1 survives a sweep at time
0 and is gone when read at time 2, and is still present when read at time 0. -/
theorem C7_ttl_expiry_witness :
    ((0 : Int) < 1 ∧ (∀ c ∈ ([0] : List Int), (0 : Int) ≤ c ∧ c ≤ 2)) ∧
    (get_cluster_data 2 "identity_key"
        (List.foldl (fun s c => cleanup_expired c s)
          (set_cluster_data 0 "identity_key" "SECRET" (some 1) empty_store)
          [0])).1 = none := by
  refine ⟨⟨by decide, by decide⟩, ?_⟩
  have h := C7_ttl_expiry empty_store "identity_key" "SECRET" 1 0 2 [0]
    (by decide) (by decide)
  rw [if_neg (by decide : ¬ (2 : Int) < 0 + 1)] at h
  exact h

/-- A resource sample recorded by `IdentityManager.update_resource_usage`. -/
structure ResourceSample where
  cpu_percent : Rat
  memory_percent : Rat
  updated_at : Int
deriving DecidableEq, Repr

/-- Pointwise update of a functional map (a Python dict only looked up by
key). -/
def fupdate {α : Type} (f : String → Option α) (k : String) (v : α) :
    String → Option α :=
  fun q => if q = k then some v else f q

/-- The mutable fields of `IdentityManager`.  The orchestrator and the shared
memory pool collaborators are passed explicitly to the operations that use
them. -/
structure IMState where
  node_id : String
  identity_key : Option String
  identity_key_hash : Option String
  prime_instance_id : Option String
  resource_usage : String → Option ResourceSample
  node_loads : String → Option Int

/-- `IdentityManager.__init__` (with a node id attached). -/
def fresh_identity_manager (node_id : String) : IMState :=
  { node_id := node_id, identity_key := none, identity_key_hash := none,
    prime_instance_id := none, resource_usage := fun _ => none,
    node_loads := fun _ => none }

/-- `IdentityManager.initialize_identity`.  `hash` abstracts
`hashlib.sha256(.encode()).hexdigest()` and `gen_key` the fresh value of
`secrets.token_urlsafe(32)`; the shared memory pool is threaded explicitly
(`none` = no pool attached).  `if identity_key:` and `if not
self.identity_key:` are Python truthiness tests, so an empty string counts as
no key. -/
def init_identity (hash : String → String) (gen_key : String) (now : Int)
    (key : Option String) (im : IMState) (pool : Option MemStore) :
    IMState × Option MemStore :=
  let step1 : IMState × Option MemStore :=
    if optTruthy key then ({ im with identity_key := key }, pool)
    else
      let fromPool : IMState × Option MemStore :=
        match pool with
        | some st =>
            let r := get_cluster_data now "identity_key" st
            if optTruthy r.1 then ({ im with identity_key := r.1 }, some r.2)
            else (im, some r.2)
        | none => (im, none)
      if optTruthy fromPool.1.identity_key then fromPool
      else
        let im2 := { fromPool.1 with identity_key := some gen_key }
        match fromPool.2 with
        | some st =>
            (im2, some (set_cluster_data now "identity_key" gen_key none st))
        | none => (im2, none)
  ({ step1.1 with identity_key_hash := step1.1.identity_key.map hash }, step1.2)

/-- `IdentityManager.verify_identity`: False when no key is initialised,
otherwise a comparison of digests only. -/
def verify_identity (hash : String → String) (key : String) (im : IMState) :
    Bool :=
  if optTruthy im.identity_key then some (hash key) == im.identity_key_hash
  else false

/-- `IdentityManager.get_prime_instance` (orchestrator attached): the leader
id when one exists (cached), the cached value otherwise. -/
def get_prime_instance (orch : OrchState) (im : IMState) :
    Option String × IMState :=
  match get_leader orch with
  | some leader =>
      (some leader.node_id, { im with prime_instance_id := some leader.node_id })
  | none => (im.prime_instance_id, im)

/-- `IdentityManager.is_prime_instance` (orchestrator attached). -/
def is_prime_instance (orch : OrchState) (_im : IMState) : Bool :=
  is_leader orch

/-- `IdentityManager.update_resource_usage` (the short-TTL publication to the
cluster store carries the same sample and is not read back by any operation
modelled here). -/
def update_resource_usage (now : Int) (nid : String) (cpu memory : Rat)
    (im : IMState) : IMState :=
  { im with resource_usage := fupdate im.resource_usage nid ⟨cpu, memory, now⟩ }

/-- The load score computed in the loop of
`IdentityManager.get_least_loaded_node`: the in-flight count, plus
0.5·cpu_percent + 0.3·memory_percent when a resource sample exists. -/
def load_score (im : IMState) (nid : String) : Rat :=
  let load : Rat := (((im.node_loads nid).getD 0 : Int) : Rat)
  match im.resource_usage nid with
  | some r => load + r.cpu_percent * (1 / 2) + r.memory_percent * (3 / 10)
  | none => load

/-- The `for node_id, node in nodes.items()` loop of
`get_least_loaded_node`: `min_load = float('inf')` is the `none` accumulator. -/
def least_loaded_fold (im : IMState) (nodes : List (String × ClusterNode)) :
    Option String × Option Rat :=
  nodes.foldl
    (fun acc p =>
      match acc.2 with
      | none => (some p.1, some (load_score im p.1))
      | some m =>
          if load_score im p.1 < m then (some p.1, some (load_score im p.1))
          else acc)
    (none, none)

/-- `IdentityManager.get_least_loaded_node` (orchestrator attached;
`return least_loaded_id or self.node_id` is Python truthiness again). -/
def get_least_loaded_node (nodes : List (String × ClusterNode))
    (im : IMState) : String :=
  if nodes.isEmpty then im.node_id
  else
    match (least_loaded_fold im nodes).1 with
    | none => im.node_id
    | some s => if s = "" then im.node_id else s

/-- `IdentityManager.allocate_request`: explicit target (truthy) or the least
loaded node; increments that node's in-flight counter. -/
def allocate_request (nodes : List (String × ClusterNode))
    (nid : Option String) (im : IMState) : IMState × String :=
  let target := if optTruthy nid then nid.getD ""
                else get_least_loaded_node nodes im
  ({ im with node_loads :=
      fupdate im.node_loads target (((im.node_loads target).getD 0) + 1) },
   target)

/-- `IdentityManager.release_request`: decrement only an existing, strictly
positive counter. -/
def release_request (nid : String) (im : IMState) : IMState :=
  match im.node_loads nid with
  | some v =>
      if 0 < v then { im with node_loads := fupdate im.node_loads nid (v - 1) }
      else im
  | none => im

/-- The dictionary returned by `IdentityManager.get_cluster_identity`. -/
structure IdentityReport where
  identity_key_hash : Option String
  prime_instance_id : Option String
  is_prime : Bool
  node_id : String
  resource_usage : String → Option ResourceSample
  node_loads : String → Option Int

/-- `IdentityManager.get_cluster_identity` (orchestrator attached). -/
def get_cluster_identity (orch : OrchState) (im : IMState) : IdentityReport :=
  { identity_key_hash := im.identity_key_hash,
    prime_instance_id := (get_prime_instance orch im).1,
    is_prime := is_prime_instance orch im,
    node_id := im.node_id,
    resource_usage := im.resource_usage,
    node_loads := im.node_loads }

/-- The dictionary returned by `ClusterOrchestrator.get_cluster_status`
(`is_leader_flag` carries the "is_leader" entry). -/
structure StatusReport where
  node_id : String
  state : NodeState
  current_term : Int
  leader_id : Option String
  is_leader_flag : Bool
  node_count : Nat
  nodes : List (String × ClusterNode)
deriving DecidableEq, Repr

/-- `ClusterOrchestrator.get_cluster_status`. -/
def get_cluster_status (σ : OrchState) : StatusReport :=
  { node_id := σ.node_id, state := σ.state, current_term := σ.current_term,
    leader_id := σ.leader_id, is_leader_flag := is_leader σ,
    node_count := σ.nodes.length, nodes := σ.nodes }

/-- The full externally visible status surface: orchestrator status plus
identity report. -/
def status_surface (orch : OrchState) (im : IMState) :
    StatusReport × IdentityReport :=
  (get_cluster_status orch, get_cluster_identity orch im)

/-- C9: the status surface never exposes the raw identity key — two identity
manager states that differ only in `identity_key` (agreeing on
`identity_key_hash` and every other field) produce identical outputs from
`get_cluster_status` and `get_cluster_identity`. -/
theorem C9_raw_key_not_exposed (orch : OrchState) (im : IMState)
    (k : Option String) :
    status_surface orch { im with identity_key := k } = status_surface orch im := by
  unfold status_surface get_cluster_identity get_prime_instance is_prime_instance
  cases get_leader orch <;> rfl

/-- One load-balancing call on the identity manager. -/
inductive LoadOp where
  | alloc (nid : Option String)
  | release (nid : String)

/-- Effect of one `allocate_request`/`release_request` call. -/
def load_step (nodes : List (String × ClusterNode)) (im : IMState)
    (op : LoadOp) : IMState :=
  match op with
  | .alloc nid => (allocate_request nodes nid im).1
  | .release nid => release_request nid im

lemma fupdate_nonneg (f : String → Option Int) (k : String) (v : Int)
    (hf : ∀ id, 0 ≤ (f id).getD 0) (hv : 0 ≤ v) :
    ∀ id, 0 ≤ ((fupdate f k v) id).getD 0 := by
  intro id
  simp only [fupdate]
  split
  · simpa using hv
  · exact hf id

lemma load_step_nonneg (nodes : List (String × ClusterNode)) (im : IMState)
    (op : LoadOp) (h : ∀ id, 0 ≤ (im.node_loads id).getD 0) :
    ∀ id, 0 ≤ ((load_step nodes im op).node_loads id).getD 0 := by
  intro id
  cases op with
  | alloc nid =>
      refine fupdate_nonneg _ _ _ h ?_ id
      have := h (if optTruthy nid then nid.getD "" else get_least_loaded_node nodes im)
      omega
  | release nid =>
      show 0 ≤ ((release_request nid im).node_loads id).getD 0
      unfold release_request
      cases hv : im.node_loads nid with
      | none => exact h id
      | some v =>
          simp only
          split
          · next h0 =>
              refine fupdate_nonneg _ _ _ h ?_ id
              omega
          · exact h id

lemma load_run_nonneg (nodes : List (String × ClusterNode)) (ops : List LoadOp) :
    ∀ im : IMState, (∀ id, 0 ≤ (im.node_loads id).getD 0) →
      ∀ id, 0 ≤ ((ops.foldl (load_step nodes) im).node_loads id).getD 0 := by
  induction ops with
  | nil => intro im h id; exact h id
  | cons op rest ih =>
      intro im h id
      exact ih _ (load_step_nonneg nodes im op h) id

/-- C10: after any finite sequence of allocate_request / release_request calls
on a fresh IdentityManager, every in-flight counter in node_loads is
non-negative — release_request decrements only an existing strictly positive
counter and is otherwise a no-op. -/
theorem C10_load_counters_nonneg (nodes : List (String × ClusterNode))
    (node_id : String) (ops : List LoadOp) (nid : String) :
    0 ≤ ((ops.foldl (load_step nodes)
        (fresh_identity_manager node_id)).node_loads nid).getD 0 :=
  load_run_nonneg nodes ops (fresh_identity_manager node_id)
    (fun _ => by simp [fresh_identity_manager]) nid

/-- C8 counterexample: the claim quantifies over every key k, but the empty
string is falsy in Python, so `initialize_identity("")` takes the
no-key-supplied path and installs a freshly generated key instead; verifying
"" afterwards compares digest("") against the digest of the generated key and
returns False, where the claim demands True.  (The digest function is
abstract; it is instantiated here so that, as for SHA-256, the digest of ""
differs from the digest of the generated token.) -/
theorem C8_identity_counterexample :
    verify_identity (fun s => s) ""
      (init_identity (fun s => s) "GENERATED" 0 (some "")
        (fresh_identity_manager "a") none).1 = false := by
  rfl

/-- C8 (amended): for every NON-EMPTY key k, directly after
initialize_identity(k) the call verify_identity(k) returns true, and
verify_identity(k2) returns false for every k2 whose digest differs from the
digest of k; verification depends on the candidate key only through its
digest (keys with equal digests verify identically against any state). -/
theorem C8_identity_roundtrip_amended (hash : String → String)
    (gen_key : String) (now : Int) (k kother : String) (im : IMState)
    (pool : Option MemStore) (hk : k ≠ "") :
    verify_identity hash k
      (init_identity hash gen_key now (some k) im pool).1 = true ∧
    (hash kother ≠ hash k →
      verify_identity hash kother
        (init_identity hash gen_key now (some k) im pool).1 = false) ∧
    (∀ k1 k2 : String, hash k1 = hash k2 →
      ∀ im2 : IMState, verify_identity hash k1 im2 = verify_identity hash k2 im2) := by
  have htr : optTruthy (some k) = true := by simp [optTruthy, hk]
  refine ⟨?_, ?_, ?_⟩
  · simp [init_identity, verify_identity, htr, optTruthy, hk]
  · intro hne
    simp [init_identity, verify_identity, htr, optTruthy, hk, hne]
  · intro k1 k2 h12 im2
    simp [verify_identity, h12]

/-- C8 witness: instantiating the amended round trip at the key "SECRET". -/
theorem C8_identity_roundtrip_witness :
    ("SECRET" ≠ "") ∧
    verify_identity (fun s => s) "SECRET"
      (init_identity (fun s => s) "GENERATED" 0 (some "SECRET")
        (fresh_identity_manager "a") none).1 = true :=
  ⟨by decide,
   (C8_identity_roundtrip_amended (fun s => s) "GENERATED" 0 "SECRET" "OTHER"
     (fresh_identity_manager "a") none (by decide)).1⟩

/-- Named form of the loop step of `get_least_loaded_node`. -/
def least_step (im : IMState) (acc : Option String × Option Rat)
    (p : String × ClusterNode) : Option String × Option Rat :=
  match acc.2 with
  | none => (some p.1, some (load_score im p.1))
  | some m =>
      if load_score im p.1 < m then (some p.1, some (load_score im p.1))
      else acc

lemma least_fold_eq (im : IMState) (nodes : List (String × ClusterNode)) :
    least_loaded_fold im nodes = nodes.foldl (least_step im) (none, none) := rfl

/-- Reference reading of the loop result used to state the tie-break: the
first node in iteration order attaining the minimal load score. -/
def first_min_node (im : IMState) :
    List (String × ClusterNode) → Option String
  | [] => none
  | p :: rest =>
      match first_min_node im rest with
      | none => some p.1
      | some q =>
          if load_score im q < load_score im p.1 then some q else some p.1

lemma least_step_some (im : IMState) (b : String) (p : String × ClusterNode) :
    least_step im (some b, some (load_score im b)) p =
      if load_score im p.1 < load_score im b
      then (some p.1, some (load_score im p.1))
      else (some b, some (load_score im b)) := rfl

lemma least_fold_from (im : IMState) (rest : List (String × ClusterNode)) :
    ∀ b : String,
      rest.foldl (least_step im) (some b, some (load_score im b)) =
        match first_min_node im rest with
        | none => (some b, some (load_score im b))
        | some q =>
            if load_score im q < load_score im b
            then (some q, some (load_score im q))
            else (some b, some (load_score im b)) := by
  induction rest with
  | nil => intro b; rfl
  | cons p rs ih =>
      intro b
      rw [List.foldl_cons, least_step_some]
      by_cases hpb : load_score im p.1 < load_score im b
      · rw [if_pos hpb, ih p.1]
        cases hfm : first_min_node im rs with
        | none => simp [first_min_node, hfm, hpb]
        | some q =>
            by_cases hqp : load_score im q < load_score im p.1
            · simp [first_min_node, hfm, hqp, lt_trans hqp hpb]
            · simp [first_min_node, hfm, hqp, hpb]
      · rw [if_neg hpb, ih b]
        cases hfm : first_min_node im rs with
        | none => simp [first_min_node, hfm, hpb]
        | some q =>
            by_cases hqp : load_score im q < load_score im p.1
            · simp [first_min_node, hfm, hqp]
            · have hqb : ¬ load_score im q < load_score im b :=
                not_lt.mpr (le_trans (not_lt.mp hpb) (not_lt.mp hqp))
              simp [first_min_node, hfm, hqp, hpb, hqb]

lemma least_fold_fst (im : IMState) (nodes : List (String × ClusterNode)) :
    (least_loaded_fold im nodes).1 = first_min_node im nodes := by
  rw [least_fold_eq]
  cases nodes with
  | nil => rfl
  | cons p rs =>
      rw [List.foldl_cons]
      rw [show least_step im (none, none) p =
          (some p.1, some (load_score im p.1)) from rfl]
      rw [least_fold_from]
      cases hfm : first_min_node im rs with
      | none => simp [first_min_node, hfm]
      | some q =>
          by_cases hqp : load_score im q < load_score im p.1
          · simp [first_min_node, hfm, hqp]
          · simp [first_min_node, hfm, hqp]

lemma first_min_node_spec (im : IMState) :
    ∀ nodes : List (String × ClusterNode), nodes ≠ [] →
      ∃ pre best suf, nodes = pre ++ best :: suf ∧
        first_min_node im nodes = some best.1 ∧
        (∀ q ∈ pre, load_score im best.1 < load_score im q.1) ∧
        (∀ q ∈ nodes, load_score im best.1 ≤ load_score im q.1) := by
  intro nodes
  induction nodes with
  | nil => intro h; exact absurd rfl h
  | cons p rs ih =>
      intro _
      rcases rs with _ | ⟨r0, rs2⟩
      · refine ⟨[], p, [], by simp, rfl, by simp, ?_⟩
        intro q hq
        rcases List.mem_cons.1 hq with hq | hq
        · rw [hq]
        · simp at hq
      · obtain ⟨pre, best, suf, hdec, hfm, hpre, hmin⟩ := ih (by simp)
        by_cases hbp : load_score im best.1 < load_score im p.1
        · refine ⟨p :: pre, best, suf, by rw [List.cons_append, hdec], ?_, ?_, ?_⟩
          · show (match first_min_node im (r0 :: rs2) with
                  | none => some p.1
                  | some q => if load_score im q < load_score im p.1
                              then some q else some p.1) = some best.1
            rw [hfm]
            simp [hbp]
          · intro q hq
            rcases List.mem_cons.1 hq with hq | hq
            · rw [hq]; exact hbp
            · exact hpre q hq
          · intro q hq
            rcases List.mem_cons.1 hq with hq | hq
            · rw [hq]; exact le_of_lt hbp
            · exact hmin q hq
        · refine ⟨[], p, r0 :: rs2, by simp, ?_, by simp, ?_⟩
          · show (match first_min_node im (r0 :: rs2) with
                  | none => some p.1
                  | some q => if load_score im q < load_score im p.1
                              then some q else some p.1) = some p.1
            rw [hfm]
            simp [hbp]
          · intro q hq
            rcases List.mem_cons.1 hq with hq | hq
            · rw [hq]
            · exact le_trans (not_lt.mp hbp) (hmin q hq)

/-- Concrete cluster {A, B, C} with in-flight loads A:2, B:0, C:5 and no
resource samples. -/
def abc_nodes : List (String × ClusterNode) :=
  [("A", mk_cluster_node 0 "A" "h1" 1 NodeState.follower),
   ("B", mk_cluster_node 0 "B" "h2" 1 NodeState.follower),
   ("C", mk_cluster_node 0 "C" "h3" 1 NodeState.follower)]

/-- Identity manager holding the loads {A:2, B:0, C:5}. -/
def abc_im : IMState :=
  { node_id := "self", identity_key := none, identity_key_hash := none,
    prime_instance_id := none, resource_usage := fun _ => none,
    node_loads := fun id =>
      if id = "A" then some 2 else if id = "B" then some 0
      else if id = "C" then some 5 else none }

/-- C5: get_least_loaded_node returns the node id minimising the load score
(in-flight count, plus 0.5·cpu + 0.3·memory when a sample exists, 0 components
otherwise), ties broken in favour of the node first encountered in map
iteration order; on an empty node map it returns the own node id; and on loads
{A:2, B:0, C:5} with no samples it returns B.  (Node ids are assumed
non-empty: `least_loaded_id or self.node_id` would divert an empty-string
winner to the own node id.) -/
theorem C5_least_loaded_node (nodes : List (String × ClusterNode))
    (im : IMState) (hids : ∀ p ∈ nodes, p.1 ≠ "") :
    (nodes = [] → get_least_loaded_node nodes im = im.node_id) ∧
    (nodes ≠ [] → ∃ pre best suf,
      nodes = pre ++ best :: suf ∧
      get_least_loaded_node nodes im = best.1 ∧
      (∀ q ∈ pre, load_score im best.1 < load_score im q.1) ∧
      (∀ q ∈ nodes, load_score im best.1 ≤ load_score im q.1)) ∧
    get_least_loaded_node abc_nodes abc_im = "B" := by
  refine ⟨?_, ?_, ?_⟩
  · intro h
    rw [h]
    rfl
  · intro hne
    obtain ⟨pre, best, suf, hdec, hfm, hpre, hmin⟩ := first_min_node_spec im nodes hne
    refine ⟨pre, best, suf, hdec, ?_, hpre, hmin⟩
    have hempty : nodes.isEmpty = false := by
      cases nodes with
      | nil => exact absurd rfl hne
      | cons a b => rfl
    have hb : best.1 ≠ "" := by
      refine hids best ?_
      rw [hdec]
      exact List.mem_append_right pre (List.mem_cons_self best suf)
    simp [get_least_loaded_node, hempty, least_fold_fst, hfm, hb]
  · rfl

/-- C5 witness: the theorem applied to the concrete {A:2, B:0, C:5} cluster. -/
theorem C5_least_loaded_node_witness :
    (∀ p ∈ abc_nodes, p.1 ≠ "") ∧
    get_least_loaded_node abc_nodes abc_im = "B" :=
  ⟨by decide, (C5_least_loaded_node abc_nodes abc_im (by decide)).2.2⟩
